import Mathlib

/-!
Verification of the analyzer resource service of `go-threatmatrix`
(`src/gointelx/analyzer.go`), over a shallow embedding.

Modelling conventions:
* A Go string is a byte sequence; we embed it as `GoString := List Nat`
  (each entry a byte value).  ASCII literals are produced by `ascii`.
* The transport client (`buildRequest` / `newRequest`), the route constants
  and `StatusResponse` are not part of the given source file; they are
  modelled from the specification (sections 4.1, 6 and the data model),
  each marked `Modelled from the spec:` in its doc comment.
* The network and the JSON decoder (`encoding/json`) are external
  collaborators; they are represented by an oracle `TransportEnv`.
* Go's multiple return values `(*[]AnalyzerConfig, error)` and
  `(bool, error)` are embedded as pairs with `Option` components
  (`none` = Go `nil`).
-/

/-- A Go string: a sequence of bytes. -/
abbrev GoString := List Nat

/-- Byte sequence of an ASCII string literal (for ASCII characters the
UTF-8 byte equals the code point, so `Char.toNat` is the byte value). -/
def ascii (s : String) : GoString := s.data.map Char.toNat

/-- Go's `<` on strings: strict lexicographic byte-wise comparison
(`sort.Strings` sorts ascending with respect to this order). -/
def goStringLt : GoString → GoString → Bool
  | [], [] => false
  | [], _ :: _ => true
  | _ :: _, [] => false
  | a :: as, b :: bs => if a < b then true else if b < a then false else goStringLt as bs

/-- Go's `<=` on strings: lexicographic byte-wise comparison. -/
def goStringLe : GoString → GoString → Bool
  | [], _ => true
  | _ :: _, [] => false
  | a :: as, b :: bs => if a < b then true else if b < a then false else goStringLe as bs

/-- Modelled from the spec: `BaseConfigurationType` (the "shared base set of
configuration fields common to all resource kinds", section 6) is not in the
given source; its schema is left abstract as field-name/value pairs. -/
structure BaseConfigurationType where
  baseFields : List (GoString × GoString)
deriving DecidableEq, Repr

/-- `AnalyzerConfig` from `analyzer.go`: how an analyzer is configured. -/
structure AnalyzerConfig where
  base : BaseConfigurationType
  Type' : GoString
  ExternalService : Bool
  LeaksInfo : Bool
  DockerBased : Bool
  RunHash : Bool
  RunHashType : GoString
  SupportedFiletypes : List GoString
  NotSupportedFiletypes : List GoString
  ObservableSupported : List GoString
deriving DecidableEq, Repr

/-- The Go zero value of `AnalyzerConfig` (what a Go map index yields on a
missing key). -/
def AnalyzerConfig.zero : AnalyzerConfig :=
  ⟨⟨[]⟩, [], false, false, false, false, [], [], [], []⟩

/-- Modelled from the spec: `StatusResponse`, "a single boolean-bearing record
representing health-check outcome" (data model / section 6). -/
structure StatusResponse where
  Status : Bool
deriving DecidableEq, Repr

/-- Client options: the configured base URL (`client.options.Url`). -/
structure IntelXClientOptions where
  Url : GoString
deriving DecidableEq

/-- The transport client: holds the immutable options. -/
structure IntelXClient where
  options : IntelXClientOptions
deriving DecidableEq

/-- `AnalyzerService` from `analyzer.go`: holds a reference to the client. -/
structure AnalyzerService where
  client : IntelXClient
deriving DecidableEq

/-- Error taxonomy of the spec (section 7). `decodeError` carries the
decoder's message; `httpStatusError` carries the original status code and
the server message. -/
inductive GoError where
  | constructionError : GoString → GoError
  | networkError : GoString → GoError
  | httpStatusError : Nat → GoString → GoError
  | decodeError : GoString → GoError
  | contextCancelled : GoError
deriving DecidableEq, Repr

/-- A built HTTP request: method, content type, optional body, target URL. -/
structure Request where
  method : GoString
  contentType : GoString
  body : Option GoString
  url : GoString
deriving DecidableEq

/-- Raw-payload envelope of a successful response (`successResp.Data`). -/
structure IntelXSuccessResponse where
  Data : GoString
deriving DecidableEq

/-- What the network does with a request: fail below HTTP, or answer with a
status code and a body. -/
inductive HttpOutcome where
  | transportFailure : GoString → HttpOutcome
  | response : Nat → GoString → HttpOutcome
deriving DecidableEq

/-- The caller-supplied context: we only track whether it is cancelled. -/
structure Ctx where
  cancelled : Bool
deriving DecidableEq

/-- Oracle for the external collaborators: URL validation inside request
construction, the network, the JSON decoders of `encoding/json` for the two
expected schemas, and the decoding of a server error body into a message. -/
structure TransportEnv where
  urlMalformed : GoString → Bool
  response : Request → HttpOutcome
  decodeConfigMap : GoString → Except GoString (List (GoString × AnalyzerConfig))
  decodeStatus : GoString → Except GoString StatusResponse
  errorMessage : GoString → GoString

/-- Modelled from the spec (section 4.1): `buildRequest` "validates inputs,
serializes body if present, attaches standard headers. Fails if the URL is
malformed or the context is already cancelled", failing with a
`ConstructionError`; on success the constructed request carries exactly the
method, content type, body and URL passed in. -/
def buildRequest (env : TransportEnv) (ctx : Ctx) (method contentType : GoString)
    (body : Option GoString) (url : GoString) : Except GoError Request :=
  if ctx.cancelled then
    .error (.constructionError (ascii "context cancelled"))
  else if env.urlMalformed url then
    .error (.constructionError url)
  else
    .ok ⟨method, contentType, body, url⟩

/-- Modelled from the spec (section 4.1): `newRequest` (the transport
`execute`) "issues the call; on non-2xx status, decodes the server's error
body (if present) into a structured error carrying status code and message;
on transport failure ... returns a network error; respects context
cancellation". -/
def newRequest (env : TransportEnv) (ctx : Ctx) (request : Request) :
    Except GoError IntelXSuccessResponse :=
  if ctx.cancelled then
    .error .contextCancelled
  else
    match env.response request with
    | .transportFailure msg => .error (.networkError msg)
    | .response statusCode body =>
      if 200 ≤ statusCode ∧ statusCode ≤ 299 then
        .ok ⟨body⟩
      else
        .error (.httpStatusError statusCode (env.errorMessage body))

/-- Modelled from the spec (section 6): the fixed listing route
`/api/get_analyzer_configs` (`constants.ANALYZER_CONFIG_URL`). -/
def ANALYZER_CONFIG_URL : GoString := ascii "/api/get_analyzer_configs"

/-- Modelled from the spec (section 6): the health-check route template with
one substitution parameter (`constants.ANALYZER_HEALTHCHECK_URL`), a Go
format string. -/
def ANALYZER_HEALTHCHECK_URL : GoString := ascii "/api/analyzer/%s/healthcheck"

/-- Go's `fmt.Sprintf` restricted to `%s` verbs: each `%s` consumes the next
argument verbatim (the argument is never rescanned, so no escaping happens);
a `%s` with no argument left renders Go's `%!s(MISSING)`.  Faithful to Go
for format strings whose only `%` occurrences are `%s` verbs. -/
def goFormatS : GoString → List GoString → GoString
  | [], _ => []
  | 37 :: 115 :: rest, a :: args => a ++ goFormatS rest args
  | 37 :: 115 :: rest, [] => ascii "%!s(MISSING)" ++ goFormatS rest []
  | c :: rest, args => c :: goFormatS rest args

/-- Go map indexing `m[k]`: the stored value, or the zero value if absent.
The decoded Go map is embedded as an association list in iteration order. -/
def mapLookup : List (GoString × AnalyzerConfig) → GoString → Option AnalyzerConfig
  | [], _ => none
  | (k, v) :: rest, key => if key = k then some v else mapLookup rest key

/-- Go map indexing `analyzerConfigurationResponse[analyzerName]` (zero value
on a missing key). -/
def mapIndex (m : List (GoString × AnalyzerConfig)) (k : GoString) : AnalyzerConfig :=
  (mapLookup m k).getD AnalyzerConfig.zero

/-- Lines 58–64 of `analyzer.go`: collect all key names of the decoded map in
iteration order, then `sort.Strings` them (ascending byte-wise). -/
def sortedAnalyzerNames (analyzerConfigurationResponse : List (GoString × AnalyzerConfig)) :
    List GoString :=
  (analyzerConfigurationResponse.map Prod.fst).mergeSort goStringLe

/-- Lines 58–70 of `analyzer.go`: the post-processing of `GetConfigs` — sort
the key names, then look each sorted name up in the map, in order. -/
def sortConfigMap (analyzerConfigurationResponse : List (GoString × AnalyzerConfig)) :
    List AnalyzerConfig :=
  (sortedAnalyzerNames analyzerConfigurationResponse).map
    (fun analyzerName => mapIndex analyzerConfigurationResponse analyzerName)

/-- The request `GetConfigs` builds (lines 41–44 of `analyzer.go`). -/
def getConfigsRequest (env : TransportEnv) (analyzerService : AnalyzerService) (ctx : Ctx) :
    Except GoError Request :=
  buildRequest env ctx (ascii "GET") (ascii "application/json") none
    (analyzerService.client.options.Url ++ ANALYZER_CONFIG_URL)

/-- `GetConfigs` from `analyzer.go` (lines 40–71): build the request, execute
it, decode the body as a name-to-config map, and return the configs sorted by
name.  Result embeds Go's `(*[]AnalyzerConfig, error)`. -/
def GetConfigs (env : TransportEnv) (analyzerService : AnalyzerService) (ctx : Ctx) :
    Option (List AnalyzerConfig) × Option GoError :=
  match getConfigsRequest env analyzerService ctx with
  | .error err => (none, some err)
  | .ok request =>
    match newRequest env ctx request with
    | .error err => (none, some err)
    | .ok successResp =>
      match env.decodeConfigMap successResp.Data with
      | .error unmarshalError => (none, some (.decodeError unmarshalError))
      | .ok analyzerConfigurationResponse =>
        (some (sortConfigMap analyzerConfigurationResponse), none)

/-- Lines 79–80 of `analyzer.go`: `fmt.Sprintf(options.Url +
ANALYZER_HEALTHCHECK_URL, analyzerName)` — note the format string is the
whole concatenation, not just the template. -/
def healthCheckUrl (options : IntelXClientOptions) (analyzerName : GoString) : GoString :=
  goFormatS (options.Url ++ ANALYZER_HEALTHCHECK_URL) [analyzerName]

/-- The request `HealthCheck` builds (lines 79–83 of `analyzer.go`). -/
def healthCheckRequest (env : TransportEnv) (analyzerService : AnalyzerService) (ctx : Ctx)
    (analyzerName : GoString) : Except GoError Request :=
  buildRequest env ctx (ascii "GET") (ascii "application/json") none
    (healthCheckUrl analyzerService.client.options analyzerName)

/-- `HealthCheck` from `analyzer.go` (lines 78–95): build the request with
the name substituted into the route, execute, decode the single-field status
record, return its boolean.  Result embeds Go's `(bool, error)`. -/
def HealthCheck (env : TransportEnv) (analyzerService : AnalyzerService) (ctx : Ctx)
    (analyzerName : GoString) : Bool × Option GoError :=
  match healthCheckRequest env analyzerService ctx analyzerName with
  | .error err => (false, some err)
  | .ok request =>
    match newRequest env ctx request with
    | .error err => (false, some err)
    | .ok successResp =>
      match env.decodeStatus successResp.Data with
      | .error unmarshalError => (false, some (.decodeError unmarshalError))
      | .ok status => (status.Status, none)

/-! ### Properties of the byte-wise string order -/

theorem goStringLe_total : ∀ a b : GoString, goStringLe a b || goStringLe b a
  | [], _ => by simp [goStringLe]
  | _ :: _, [] => by simp [goStringLe]
  | a :: as, b :: bs => by
    simp only [goStringLe]
    rcases Nat.lt_trichotomy a b with h | h | h
    · simp [h]
    · subst h
      simpa [Nat.lt_irrefl] using goStringLe_total as bs
    · simp [h, Nat.not_lt_of_gt h]

theorem goStringLe_trans :
    ∀ a b c : GoString, goStringLe a b → goStringLe b c → goStringLe a c
  | [], _, _ => by simp [goStringLe]
  | _ :: _, [], _ => by simp [goStringLe]
  | _ :: _, _ :: _, [] => by simp [goStringLe]
  | a :: as, b :: bs, c :: cs => by
    simp only [goStringLe]
    intro h1 h2
    split_ifs at h1 h2 ⊢ with hab hba hbc hcb hac hca
    all_goals first
      | rfl
      | omega
      | exact goStringLe_trans as bs cs h1 h2

theorem goStringLe_antisymm :
    ∀ a b : GoString, goStringLe a b = true → goStringLe b a = true → a = b
  | [], [], _, _ => rfl
  | [], _ :: _, _, h => by simp [goStringLe] at h
  | _ :: _, [], h, _ => by simp [goStringLe] at h
  | a :: as, b :: bs, h1, h2 => by
    simp only [goStringLe] at h1 h2
    rcases Nat.lt_trichotomy a b with h | h | h
    · rw [if_neg (by omega), if_pos h] at h2
      exact absurd h2 (by simp)
    · subst h
      rw [if_neg (Nat.lt_irrefl a), if_neg (Nat.lt_irrefl a)] at h1 h2
      rw [goStringLe_antisymm as bs h1 h2]
    · rw [if_neg (by omega), if_pos h] at h1
      exact absurd h1 (by simp)

theorem goStringLt_iff :
    ∀ a b : GoString, goStringLt a b = true ↔ (goStringLe a b = true ∧ a ≠ b)
  | [], [] => by simp [goStringLt, goStringLe]
  | [], _ :: _ => by simp [goStringLt, goStringLe]
  | _ :: _, [] => by simp [goStringLt, goStringLe]
  | a :: as, b :: bs => by
    simp only [goStringLt, goStringLe]
    rcases Nat.lt_trichotomy a b with h | h | h
    · rw [if_pos h, if_pos h]
      constructor
      · intro _
        refine ⟨rfl, ?_⟩
        intro hc
        rw [List.cons.injEq] at hc
        omega
      · intro _
        rfl
    · subst h
      rw [if_neg (Nat.lt_irrefl a), if_neg (Nat.lt_irrefl a),
        if_neg (Nat.lt_irrefl a), if_neg (Nat.lt_irrefl a), goStringLt_iff as bs]
      simp
    · rw [if_neg (by omega), if_pos h, if_neg (by omega), if_pos h]
      simp

/-! ### Properties of the map-lookup embedding -/

theorem mapLookup_eq_some_of_mem_keys :
    ∀ (m : List (GoString × AnalyzerConfig)) (k : GoString),
      k ∈ m.map Prod.fst → ∃ v, mapLookup m k = some v
  | [], k, h => by simp at h
  | (k', v') :: rest, k, h => by
    by_cases hk : k = k'
    · exact ⟨v', by simp [mapLookup, hk]⟩
    · rcases mapLookup_eq_some_of_mem_keys rest k (by simpa [hk] using h) with ⟨v, hv⟩
      exact ⟨v, by simpa [mapLookup, hk] using hv⟩

theorem mem_of_mapLookup_eq_some :
    ∀ (m : List (GoString × AnalyzerConfig)) (k : GoString) (v : AnalyzerConfig),
      mapLookup m k = some v → (k, v) ∈ m
  | [], k, v, h => by simp [mapLookup] at h
  | (k', v') :: rest, k, v, h => by
    by_cases hk : k = k'
    · subst hk
      have hself : mapLookup ((k, v') :: rest) k = some v' := by
        simp [mapLookup]
      rw [hself] at h
      obtain rfl := Option.some.inj h
      exact List.mem_cons_self _ _
    · simp only [mapLookup, if_neg hk] at h
      exact List.mem_cons_of_mem _ (mem_of_mapLookup_eq_some rest k v h)

theorem mapLookup_eq_some_of_mem :
    ∀ (m : List (GoString × AnalyzerConfig)) (k : GoString) (v : AnalyzerConfig),
      (m.map Prod.fst).Nodup → (k, v) ∈ m → mapLookup m k = some v
  | [], k, v, _, h => by simp at h
  | (k', v') :: rest, k, v, hnd, h => by
    simp only [List.map_cons, List.nodup_cons] at hnd
    rcases List.mem_cons.mp h with heq | hmem
    · rw [Prod.mk.injEq] at heq
      simp [mapLookup, heq.1, heq.2]
    · have hk : k ≠ k' := by
        intro hkk
        apply hnd.1
        rw [← hkk]
        exact List.mem_map_of_mem Prod.fst hmem
      simp only [mapLookup, if_neg hk]
      exact mapLookup_eq_some_of_mem rest k v hnd.2 hmem

theorem mapLookup_eq_none_of_not_mem_keys :
    ∀ (m : List (GoString × AnalyzerConfig)) (k : GoString),
      k ∉ m.map Prod.fst → mapLookup m k = none
  | [], k, _ => rfl
  | (k', v') :: rest, k, h => by
    have hk : k ≠ k' := by
      intro hkk
      exact h (by simp [hkk])
    simp only [mapLookup, if_neg hk]
    exact mapLookup_eq_none_of_not_mem_keys rest k (fun hm => h (by simp [hm]))

/-! ### Shared facts about the sorted output -/

theorem sortedAnalyzerNames_perm (m : List (GoString × AnalyzerConfig)) :
    (sortedAnalyzerNames m).Perm (m.map Prod.fst) :=
  List.mergeSort_perm _ _

theorem sortedAnalyzerNames_pairwise_le (m : List (GoString × AnalyzerConfig)) :
    (sortedAnalyzerNames m).Pairwise (fun a b => goStringLe a b = true) :=
  List.sorted_mergeSort goStringLe_trans goStringLe_total _

theorem sortedAnalyzerNames_pairwise_lt (m : List (GoString × AnalyzerConfig))
    (hnd : (m.map Prod.fst).Nodup) :
    (sortedAnalyzerNames m).Pairwise (fun a b => goStringLt a b = true) := by
  have hsorted := sortedAnalyzerNames_pairwise_le m
  have hnodup : (sortedAnalyzerNames m).Nodup :=
    (sortedAnalyzerNames_perm m).symm.nodup hnd
  have hand := hsorted.and hnodup
  exact hand.imp (fun h => (goStringLt_iff _ _).mpr h)

/-- C1: For every non-empty decoded mapping, the sequence `GetConfigs`
returns is sorted strictly ascending by resource name in byte-wise
lexicographic order, its length equals the number of mapping entries, and
each element is the mapping's value at the corresponding sorted key. -/
theorem getConfigs_output_sorted (m : List (GoString × AnalyzerConfig))
    (hnd : (m.map Prod.fst).Nodup) (hne : m ≠ []) :
    (sortedAnalyzerNames m).Pairwise (fun a b => goStringLt a b = true)
    ∧ (sortConfigMap m).length = m.length
    ∧ ∀ i (hi : i < (sortedAnalyzerNames m).length) (hj : i < (sortConfigMap m).length),
        mapLookup m ((sortedAnalyzerNames m).get ⟨i, hi⟩) =
          some ((sortConfigMap m).get ⟨i, hj⟩) := by
  refine ⟨sortedAnalyzerNames_pairwise_lt m hnd, ?_, ?_⟩
  · rw [sortConfigMap, List.length_map,
      (sortedAnalyzerNames_perm m).length_eq, List.length_map]
  · intro i hi hj
    have hmem : (sortedAnalyzerNames m).get ⟨i, hi⟩ ∈ sortedAnalyzerNames m :=
      List.get_mem _ _ hi
    have hkeys : (sortedAnalyzerNames m).get ⟨i, hi⟩ ∈ m.map Prod.fst :=
      (sortedAnalyzerNames_perm m).mem_iff.mp hmem
    obtain ⟨v, hv⟩ := mapLookup_eq_some_of_mem_keys m _ hkeys
    have hget : (sortConfigMap m).get ⟨i, hj⟩ =
        mapIndex m ((sortedAnalyzerNames m).get ⟨i, hi⟩) := by
      simp [sortConfigMap]
    rw [hget, mapIndex, hv]
    rfl

/-- A concrete analyzer configuration used by witnesses. -/
def cfgA : AnalyzerConfig :=
  ⟨⟨[]⟩, ascii "observable", true, false, false, false, [], [], [], [ascii "ip"]⟩

/-- A second concrete analyzer configuration used by witnesses. -/
def cfgB : AnalyzerConfig :=
  ⟨⟨[]⟩, ascii "file", false, true, true, false, [], [ascii "pdf"], [], []⟩

/-- A concrete decoded mapping, listed in a non-sorted iteration order. -/
def sampleMap : List (GoString × AnalyzerConfig) :=
  [(ascii "b", cfgB), (ascii "a", cfgA)]

/-- Witness for C1 at the concrete two-entry mapping `sampleMap`. -/
theorem getConfigs_output_sorted_witness :
    (sampleMap.map Prod.fst).Nodup ∧ sampleMap ≠ [] ∧
    ((sortedAnalyzerNames sampleMap).Pairwise (fun a b => goStringLt a b = true)
     ∧ (sortConfigMap sampleMap).length = sampleMap.length
     ∧ ∀ i (hi : i < (sortedAnalyzerNames sampleMap).length)
         (hj : i < (sortConfigMap sampleMap).length),
         mapLookup sampleMap ((sortedAnalyzerNames sampleMap).get ⟨i, hi⟩) =
           some ((sortConfigMap sampleMap).get ⟨i, hj⟩)) :=
  ⟨by decide, by decide, getConfigs_output_sorted sampleMap (by decide) (by decide)⟩

/-- Two association lists representing the same Go map (permutations of each
other, unique keys) agree on every lookup. -/
theorem mapLookup_congr_of_perm (m₁ m₂ : List (GoString × AnalyzerConfig))
    (hperm : m₁.Perm m₂) (hnd : (m₁.map Prod.fst).Nodup) (k : GoString) :
    mapLookup m₁ k = mapLookup m₂ k := by
  have hnd₂ : (m₂.map Prod.fst).Nodup := (hperm.map Prod.fst).nodup hnd
  cases h : mapLookup m₁ k with
  | none =>
    have hk : k ∉ m₂.map Prod.fst := by
      intro hmem
      have hmem₁ : k ∈ m₁.map Prod.fst := (hperm.map Prod.fst).mem_iff.mpr hmem
      obtain ⟨v, hv⟩ := mapLookup_eq_some_of_mem_keys m₁ k hmem₁
      rw [h] at hv
      exact Option.noConfusion hv
    exact (mapLookup_eq_none_of_not_mem_keys m₂ k hk).symm
  | some v =>
    have hmem : (k, v) ∈ m₂ := hperm.mem_iff.mp (mem_of_mapLookup_eq_some m₁ k v h)
    exact (mapLookup_eq_some_of_mem m₂ k v hnd₂ hmem).symm

/-- C6: the post-processing of `getConfigs` is deterministic — two decodes of
the same mapping, visited in any two iteration orders, produce identical
output sequences. -/
theorem getConfigs_deterministic (m₁ m₂ : List (GoString × AnalyzerConfig))
    (hperm : m₁.Perm m₂) (hnd : (m₁.map Prod.fst).Nodup) :
    sortConfigMap m₁ = sortConfigMap m₂ := by
  have hr : ∀ a b : GoString, goStringLe a b = true → goStringLe b a = true → a = b :=
    goStringLe_antisymm
  haveI : IsAntisymm GoString (fun a b => goStringLe a b = true) := ⟨hr⟩
  have hnames : sortedAnalyzerNames m₁ = sortedAnalyzerNames m₂ :=
    List.eq_of_perm_of_sorted (r := fun a b => goStringLe a b = true)
      ((sortedAnalyzerNames_perm m₁).trans
        ((hperm.map Prod.fst).trans (sortedAnalyzerNames_perm m₂).symm))
      (sortedAnalyzerNames_pairwise_le m₁)
      (sortedAnalyzerNames_pairwise_le m₂)
  rw [sortConfigMap, sortConfigMap, hnames]
  apply List.map_congr_left
  intro k _
  rw [mapIndex, mapIndex, mapLookup_congr_of_perm m₁ m₂ hperm hnd k]

/-- Witness for C6: `sampleMap` and its reversal decode the same mapping. -/
theorem getConfigs_deterministic_witness :
    sampleMap.Perm sampleMap.reverse ∧ (sampleMap.map Prod.fst).Nodup ∧
    sortConfigMap sampleMap = sortConfigMap sampleMap.reverse :=
  ⟨by decide, by decide,
    getConfigs_deterministic sampleMap sampleMap.reverse (by decide) (by decide)⟩

/-- C2: whenever the health-check response decodes to the single-field
boolean status record with field `b`, `HealthCheck` returns exactly `b`,
with no error. -/
theorem healthCheck_roundtrip (env : TransportEnv) (svc : AnalyzerService) (ctx : Ctx)
    (name : GoString) (code : Nat) (body : GoString) (b : Bool)
    (hc : ctx.cancelled = false)
    (hurl : env.urlMalformed (healthCheckUrl svc.client.options name) = false)
    (hresp : env.response
      ⟨ascii "GET", ascii "application/json", none,
        healthCheckUrl svc.client.options name⟩ = .response code body)
    (h2xx : 200 ≤ code ∧ code ≤ 299)
    (hdec : env.decodeStatus body = .ok ⟨b⟩) :
    HealthCheck env svc ctx name = (b, none) := by
  simp [HealthCheck, healthCheckRequest, buildRequest, newRequest,
    hc, hurl, hresp, hdec, h2xx.1, h2xx.2]

/-- C3: a non-2xx response makes both operations return an `HTTPStatusError`
carrying the original status code, exactly as the transport step raised it;
the data component is the nil pointer for `GetConfigs` and `false`-with-error
for `HealthCheck`, never a successful empty sequence or successful `false`. -/
theorem non2xx_yields_httpStatusError (env : TransportEnv) (svc : AnalyzerService)
    (ctx : Ctx) (name : GoString) (code₁ : Nat) (body₁ : GoString)
    (code₂ : Nat) (body₂ : GoString)
    (hc : ctx.cancelled = false)
    (hurl₁ : env.urlMalformed (svc.client.options.Url ++ ANALYZER_CONFIG_URL) = false)
    (hresp₁ : env.response
      ⟨ascii "GET", ascii "application/json", none,
        svc.client.options.Url ++ ANALYZER_CONFIG_URL⟩ = .response code₁ body₁)
    (hcode₁ : ¬(200 ≤ code₁ ∧ code₁ ≤ 299))
    (hurl₂ : env.urlMalformed (healthCheckUrl svc.client.options name) = false)
    (hresp₂ : env.response
      ⟨ascii "GET", ascii "application/json", none,
        healthCheckUrl svc.client.options name⟩ = .response code₂ body₂)
    (hcode₂ : ¬(200 ≤ code₂ ∧ code₂ ≤ 299)) :
    GetConfigs env svc ctx =
      (none, some (.httpStatusError code₁ (env.errorMessage body₁)))
    ∧ HealthCheck env svc ctx name =
      (false, some (.httpStatusError code₂ (env.errorMessage body₂))) := by
  constructor
  · simp [GetConfigs, getConfigsRequest, buildRequest, newRequest,
      hc, hurl₁, hresp₁, hcode₁]
  · simp [HealthCheck, healthCheckRequest, buildRequest, newRequest,
      hc, hurl₂, hresp₂, hcode₂]

/-- C4: a successfully decoded empty mapping yields the empty sequence and
no error. -/
theorem getConfigs_empty_map (env : TransportEnv) (svc : AnalyzerService) (ctx : Ctx)
    (code : Nat) (body : GoString)
    (hc : ctx.cancelled = false)
    (hurl : env.urlMalformed (svc.client.options.Url ++ ANALYZER_CONFIG_URL) = false)
    (hresp : env.response
      ⟨ascii "GET", ascii "application/json", none,
        svc.client.options.Url ++ ANALYZER_CONFIG_URL⟩ = .response code body)
    (h2xx : 200 ≤ code ∧ code ≤ 299)
    (hdec : env.decodeConfigMap body = .ok []) :
    GetConfigs env svc ctx = (some [], none) := by
  simp [GetConfigs, getConfigsRequest, buildRequest, newRequest,
    hc, hurl, hresp, hdec, h2xx.1, h2xx.2, sortConfigMap, sortedAnalyzerNames]

/-- C5: a success-status body the decoder rejects yields a `DecodeError`
from each operation (a defined error value — no crash). -/
theorem malformed_body_yields_decodeError (env : TransportEnv) (svc : AnalyzerService)
    (ctx : Ctx) (name : GoString) (code₁ : Nat) (body₁ : GoString)
    (code₂ : Nat) (body₂ : GoString) (e₁ e₂ : GoString)
    (hc : ctx.cancelled = false)
    (hurl₁ : env.urlMalformed (svc.client.options.Url ++ ANALYZER_CONFIG_URL) = false)
    (hresp₁ : env.response
      ⟨ascii "GET", ascii "application/json", none,
        svc.client.options.Url ++ ANALYZER_CONFIG_URL⟩ = .response code₁ body₁)
    (h2xx₁ : 200 ≤ code₁ ∧ code₁ ≤ 299)
    (hdec₁ : env.decodeConfigMap body₁ = .error e₁)
    (hurl₂ : env.urlMalformed (healthCheckUrl svc.client.options name) = false)
    (hresp₂ : env.response
      ⟨ascii "GET", ascii "application/json", none,
        healthCheckUrl svc.client.options name⟩ = .response code₂ body₂)
    (h2xx₂ : 200 ≤ code₂ ∧ code₂ ≤ 299)
    (hdec₂ : env.decodeStatus body₂ = .error e₂) :
    GetConfigs env svc ctx = (none, some (.decodeError e₁))
    ∧ HealthCheck env svc ctx name = (false, some (.decodeError e₂)) := by
  constructor
  · simp [GetConfigs, getConfigsRequest, buildRequest, newRequest,
      hc, hurl₁, hresp₁, hdec₁, h2xx₁.1, h2xx₁.2]
  · simp [HealthCheck, healthCheckRequest, buildRequest, newRequest,
      hc, hurl₂, hresp₂, hdec₂, h2xx₂.1, h2xx₂.2]

/-- A concrete service whose configured base URL is a plain host. -/
def svc0 : AnalyzerService := ⟨⟨⟨ascii "https://intelx.example"⟩⟩⟩

/-- A live (not cancelled) context. -/
def ctx0 : Ctx := ⟨false⟩

/-- A healthy server: every request gets a 200 answer whose body decodes to
an empty config map and to a status record with field `true`. -/
def envHealthy : TransportEnv :=
  ⟨fun _ => false, fun _ => .response 200 (ascii "status true"),
    fun _ => .ok [], fun _ => .ok ⟨true⟩, fun _ => []⟩

/-- A server answering 404 to every request. -/
def env404 : TransportEnv :=
  ⟨fun _ => false, fun _ => .response 404 (ascii "not found"),
    fun _ => .ok [], fun _ => .ok ⟨true⟩, fun _ => ascii "analyzer not found"⟩

/-- A server answering 200 with a body both decoders reject. -/
def envBadBody : TransportEnv :=
  ⟨fun _ => false, fun _ => .response 200 (ascii "xml"),
    fun _ => .error (ascii "invalid character"),
    fun _ => .error (ascii "invalid character"), fun _ => []⟩

/-- Witness for C2 at a healthy server and the name `Shodan`. -/
theorem healthCheck_roundtrip_witness :
    HealthCheck envHealthy svc0 ctx0 (ascii "Shodan") = (true, none) :=
  healthCheck_roundtrip envHealthy svc0 ctx0 (ascii "Shodan") 200
    (ascii "status true") true rfl rfl rfl (by decide) rfl

/-- Witness for C3 at a 404 server. -/
theorem non2xx_yields_httpStatusError_witness :
    GetConfigs env404 svc0 ctx0 =
      (none, some (.httpStatusError 404 (ascii "analyzer not found")))
    ∧ HealthCheck env404 svc0 ctx0 (ascii "Shodan") =
      (false, some (.httpStatusError 404 (ascii "analyzer not found"))) :=
  non2xx_yields_httpStatusError env404 svc0 ctx0 (ascii "Shodan") 404
    (ascii "not found") 404 (ascii "not found") rfl rfl rfl (by decide)
    rfl rfl (by decide)

/-- Witness for C4 at a server returning an empty mapping. -/
theorem getConfigs_empty_map_witness :
    GetConfigs envHealthy svc0 ctx0 = (some [], none) :=
  getConfigs_empty_map envHealthy svc0 ctx0 200 (ascii "status true")
    rfl rfl rfl (by decide) rfl

/-- Witness for C5 at a server whose 200 body both decoders reject. -/
theorem malformed_body_yields_decodeError_witness :
    GetConfigs envBadBody svc0 ctx0 =
      (none, some (.decodeError (ascii "invalid character")))
    ∧ HealthCheck envBadBody svc0 ctx0 (ascii "Shodan") =
      (false, some (.decodeError (ascii "invalid character"))) :=
  malformed_body_yields_decodeError envBadBody svc0 ctx0 (ascii "Shodan")
    200 (ascii "xml") 200 (ascii "xml") (ascii "invalid character")
    (ascii "invalid character") rfl rfl rfl (by decide) rfl rfl rfl (by decide) rfl

/-- C8: any request the two operations successfully build is a bodyless GET
carrying the Content-Type `application/json`. -/
theorem requests_are_get_json (env : TransportEnv) (svc : AnalyzerService) (ctx : Ctx)
    (name : GoString) (r : Request)
    (h : getConfigsRequest env svc ctx = .ok r
      ∨ healthCheckRequest env svc ctx name = .ok r) :
    r.method = ascii "GET" ∧ r.contentType = ascii "application/json"
    ∧ r.body = none := by
  rcases h with h | h <;>
  · simp only [getConfigsRequest, healthCheckRequest, buildRequest] at h
    split_ifs at h
    all_goals
      first
        | exact Except.noConfusion h
        | (injection h with h3
           subst h3
           exact ⟨rfl, rfl, rfl⟩)

/-- The request `GetConfigs` builds against `svc0`, made explicit. -/
def request0 : Request :=
  ⟨ascii "GET", ascii "application/json", none,
    svc0.client.options.Url ++ ANALYZER_CONFIG_URL⟩

/-- Witness for C8 at the concrete request built by `GetConfigs`. -/
theorem requests_are_get_json_witness :
    request0.method = ascii "GET" ∧ request0.contentType = ascii "application/json"
    ∧ request0.body = none :=
  requests_are_get_json envHealthy svc0 ctx0 (ascii "Shodan") request0 (Or.inl rfl)

/-- The boolean the decode step of `HealthCheck` produced, if the call got
that far (`none` on any earlier failure). -/
def healthCheckDecodedStatus (env : TransportEnv) (svc : AnalyzerService) (ctx : Ctx)
    (name : GoString) : Option Bool :=
  match healthCheckRequest env svc ctx name with
  | .error _ => none
  | .ok request =>
    match newRequest env ctx request with
    | .error _ => none
    | .ok successResp =>
      match env.decodeStatus successResp.Data with
      | .error _ => none
      | .ok status => some status.Status

/-- C9: on every failure path the boolean component of `HealthCheck` is
`false`; it is `true` only when the call succeeded and the decoded status
field was `true`. -/
theorem healthCheck_false_on_failure (env : TransportEnv) (svc : AnalyzerService)
    (ctx : Ctx) (name : GoString) :
    ((HealthCheck env svc ctx name).2.isSome → (HealthCheck env svc ctx name).1 = false)
    ∧ ((HealthCheck env svc ctx name).1 = true →
        (HealthCheck env svc ctx name).2 = none
        ∧ healthCheckDecodedStatus env svc ctx name = some true) := by
  rcases hreq : healthCheckRequest env svc ctx name with e | req
  · simp [HealthCheck, healthCheckDecodedStatus, hreq]
  · rcases hresp : newRequest env ctx req with e | sr
    · simp [HealthCheck, healthCheckDecodedStatus, hreq, hresp]
    · rcases hdec : env.decodeStatus sr.Data with e | st
      · simp [HealthCheck, healthCheckDecodedStatus, hreq, hresp, hdec]
      · refine ⟨?_, ?_⟩ <;>
          simp [HealthCheck, healthCheckDecodedStatus, hreq, hresp, hdec]

/-- Witness for C9 at a 404 server (a failure path). -/
theorem healthCheck_false_on_failure_witness :
    (((HealthCheck env404 svc0 ctx0 (ascii "Shodan")).2.isSome →
      (HealthCheck env404 svc0 ctx0 (ascii "Shodan")).1 = false)
    ∧ ((HealthCheck env404 svc0 ctx0 (ascii "Shodan")).1 = true →
        (HealthCheck env404 svc0 ctx0 (ascii "Shodan")).2 = none
        ∧ healthCheckDecodedStatus env404 svc0 ctx0 (ascii "Shodan") = some true)) :=
  healthCheck_false_on_failure env404 svc0 ctx0 (ascii "Shodan")

/-- C10: `GetConfigs` never pairs a nil sequence pointer with a nil error:
an error-free return carries a non-nil (possibly empty) sequence. -/
theorem getConfigs_result_not_nil (env : TransportEnv) (svc : AnalyzerService)
    (ctx : Ctx) :
    ((GetConfigs env svc ctx).2 = none → ((GetConfigs env svc ctx).1).isSome = true)
    ∧ GetConfigs env svc ctx ≠ (none, none) := by
  rcases hreq : getConfigsRequest env svc ctx with e | req
  · simp [GetConfigs, hreq]
  · rcases hresp : newRequest env ctx req with e | sr
    · simp [GetConfigs, hreq, hresp]
    · rcases hdec : env.decodeConfigMap sr.Data with e | m
      · simp [GetConfigs, hreq, hresp, hdec]
      · simp [GetConfigs, hreq, hresp, hdec]

/-- Witness for C10 at a healthy server. -/
theorem getConfigs_result_not_nil_witness :
    (((GetConfigs envHealthy svc0 ctx0).2 = none →
      ((GetConfigs envHealthy svc0 ctx0).1).isSome = true)
    ∧ GetConfigs envHealthy svc0 ctx0 ≠ (none, none)) :=
  getConfigs_result_not_nil envHealthy svc0 ctx0

/-- Unfolding `goFormatS` past a byte that is not `%` (37). -/
theorem goFormatS_cons_of_ne (c : Nat) (l : GoString) (args : List GoString)
    (h : c ≠ 37) : goFormatS (c :: l) args = c :: goFormatS l args := by
  rw [goFormatS.eq_def]
  split <;> simp_all

/-- `goFormatS` copies a `%`-free prefix verbatim. -/
theorem goFormatS_append_of_no_percent (u v : GoString) (args : List GoString)
    (h : 37 ∉ u) : goFormatS (u ++ v) args = u ++ goFormatS v args := by
  induction u with
  | nil => simp
  | cons c cs ih =>
    have hc : c ≠ 37 := fun hh => h (by simp [hh])
    have hcs : 37 ∉ cs := fun hh => h (by simp [hh])
    simp only [List.cons_append, goFormatS_cons_of_ne c _ args hc, ih hcs]

/-- C7 counterexample: with the configured base URL `"%s"` and the name
`"x"`, `fmt.Sprintf` substitutes the name into the base URL's `%s` — the
first verb of the concatenated format string — and leaves the route
template's placeholder as `%!s(MISSING)`, so the request URL is NOT the base
URL concatenated with the name-substituted template. -/
theorem healthCheckUrl_percent_base_counterexample :
    healthCheckUrl ⟨ascii "%s"⟩ (ascii "x") =
      ascii "x/api/analyzer/%!s(MISSING)/healthcheck"
    ∧ healthCheckUrl ⟨ascii "%s"⟩ (ascii "x") ≠
      ascii "%s" ++ (ascii "/api/analyzer/" ++ (ascii "x" ++ ascii "/healthcheck")) := by
  constructor <;> decide

/-- C7 (amended): provided the configured base URL contains no `%` byte, the
request URL built by `HealthCheck` is the base URL concatenated with the
health-check route template with the name substituted as a path segment, the
name taken verbatim — no escaping or validation applied to it. -/
theorem healthCheckUrl_is_base_concat_route (env : TransportEnv)
    (svc : AnalyzerService) (ctx : Ctx) (name : GoString)
    (h : 37 ∉ svc.client.options.Url) :
    healthCheckUrl svc.client.options name =
      svc.client.options.Url ++ (ascii "/api/analyzer/" ++ (name ++ ascii "/healthcheck"))
    ∧ ∀ r, healthCheckRequest env svc ctx name = .ok r →
        r.url = svc.client.options.Url ++
          (ascii "/api/analyzer/" ++ (name ++ ascii "/healthcheck")) := by
  have hmain : healthCheckUrl svc.client.options name =
      svc.client.options.Url ++
        (ascii "/api/analyzer/" ++ (name ++ ascii "/healthcheck")) := by
    rw [healthCheckUrl, goFormatS_append_of_no_percent _ _ _ h]
    rfl
  refine ⟨hmain, ?_⟩
  intro r hr
  simp only [healthCheckRequest, buildRequest] at hr
  split_ifs at hr
  all_goals
    first
      | exact Except.noConfusion hr
      | (injection hr with hr3
         subst hr3
         exact hmain)

/-- Witness for the amended C7 at the `%`-free base URL of `svc0`. -/
theorem healthCheckUrl_is_base_concat_route_witness :
    healthCheckUrl svc0.client.options (ascii "Shodan") =
      svc0.client.options.Url ++
        (ascii "/api/analyzer/" ++ (ascii "Shodan" ++ ascii "/healthcheck"))
    ∧ ∀ r, healthCheckRequest envHealthy svc0 ctx0 (ascii "Shodan") = .ok r →
        r.url = svc0.client.options.Url ++
          (ascii "/api/analyzer/" ++ (ascii "Shodan" ++ ascii "/healthcheck")) :=
  healthCheckUrl_is_base_concat_route envHealthy svc0 ctx0 (ascii "Shodan") (by decide)
